import Mathlib

/-!
Verification development for the email capture-and-retrieval subsystem of
the repository (`docs/examples/demo_apps/email_mcp`): the SMTP capture sink
(`mail_sink/server.py`) and the retrieval / send helpers
(`mcp_server/utils.py`).

The Python code is shallowly embedded: pure functions become Lean
functions, filesystem state is passed explicitly, machine-level details
that the code only observes through a fixed API (charset decoding, ISO
timestamp parsing) are abstracted as function parameters, with each
abstraction documented at its definition.
-/

set_option maxRecDepth 8192

namespace EmailMcp

/-- Attachment metadata entry, as produced by the mail sink
(`_attachment_metadata` in `mail_sink/server.py`) and re-produced with
optional inline text by `_extract_textual_attachments` in
`mcp_server/utils.py`.  `text` is `none` for capture-time entries (the
sink never writes a `text` key) and may be populated on read. -/
structure AttachmentEntry where
  filename : String
  content_type : String
  size_bytes : Nat
  text : Option String := none
deriving DecidableEq

/-- A stored metadata record: the JSON object written by
`SinkHandler.handle_message` (`mail_sink/server.py` lines 168-184).
Optional fields model JSON `null` or absent values.  The JSON key
`"from"` is named `fromAddr` here because `from` is reserved in Lean;
`attachments` conflates a missing key with the empty list. -/
structure Record where
  id : Option String := none
  stored_at : Option String := none
  subject : Option String := none
  fromAddr : Option String := none
  toAddrs : Option (List String) := none
  cc : Option (List String) := none
  bcc : Option (List String) := none
  date : Option String := none
  message_id : Option String := none
  in_reply_to : Option String := none
  references : Option String := none
  text : Option String := none
  html : Option String := none
  attachments : List AttachmentEntry := []
  raw_path : Option String := none
deriving DecidableEq

/-- The reduced projection returned by `list_emails_fs`
(`mcp_server/utils.py` lines 154-165): exactly the keys
`id, subject, from, to, date`. -/
structure Summary where
  id : Option String
  subject : Option String
  fromAddr : Option String
  toAddrs : Option (List String)
  date : Option String
deriving DecidableEq

/-- Insert an element into a list that is sorted by `key` descending,
placing it after existing elements of equal key.  This is the stable
behaviour of CPython's `list.sort(key=..., reverse=True)`. -/
def insertDesc {α : Type} (key : α → Int) (r : α) : List α → List α
  | [] => [r]
  | x :: xs => if key x ≤ key r then r :: x :: xs else x :: insertDesc key r xs

/-- Stable descending sort by `key`, modelling
`recs.sort(key=..., reverse=True)` in `list_emails_fs`. -/
def sortDesc {α : Type} (key : α → Int) : List α → List α
  | [] => []
  | r :: rs => insertDesc key r (sortDesc key rs)

/-- Sort key of a record: models `_parse_iso(r.get("stored_at", ""))` in
`list_emails_fs`.  The parameter `parse` abstracts
`datetime.fromisoformat(s).timestamp()` via an order-embedding of the
finitely many occurring float timestamps into `Int`; `parse s = none`
models the `except` branch (a `ValueError`), which `_parse_iso` maps to
the epoch value `0.0`. -/
def parseIsoKey (parse : String → Option Int) (r : Record) : Int :=
  (parse (r.stored_at.getD "")).getD 0

/-- Character-wise lower-casing, modelling Python `str.lower()`.
`Char.toLower` lower-cases ASCII letters only; the Unicode case table
beyond ASCII is not modelled (all concrete inputs below are ASCII). -/
def lowerS (s : String) : String := String.mk (s.data.map Char.toLower)

/-- Substring containment `needle in haystack` (Python `in` on `str`),
on the underlying character lists. -/
def containsSub (needle : List Char) : List Char → Bool
  | [] => needle.isEmpty
  | c :: rest => needle.isPrefixOf (c :: rest) || containsSub needle rest

/-- Search haystack of a record: the inner `hay` of `list_emails_fs`
(lines 145-150).  Each of `subject`, `from`, the space-joined `to` list
and `text` is lower-cased (absent values become `""`), and the four are
joined with `" | "`. -/
def hay (r : Record) : String :=
  String.intercalate " | "
    [lowerS (r.subject.getD ""), lowerS (r.fromAddr.getD ""),
     lowerS (String.intercalate " " (r.toAddrs.getD [])), lowerS (r.text.getD "")]

/-- Case-insensitive literal substring test `q.lower() in hay(r)`. -/
def queryMatches (q : String) (r : Record) : Bool :=
  containsSub (lowerS q).data (hay r).data

/-- Projection of a record to the summary returned by `list_emails_fs`. -/
def summaryOf (r : Record) : Summary :=
  ⟨r.id, r.subject, r.fromAddr, r.toAddrs, r.date⟩

/-- Records selected by `list_emails_fs` before the final projection:
drop unreadable files, stable-sort by `stored_at` descending, apply the
optional substring filter, then slice `[: max(1, limit)]`. -/
def selectedRecs (parse : String → Option Int) (files : List (Option Record))
    (query : Option String) (limit : Int) : List Record :=
  let recs := files.filterMap id
  let sorted := sortDesc (parseIsoKey parse) recs
  let filtered :=
    match query with
    | none => sorted
    | some q => if q = "" then sorted else sorted.filter (queryMatches q)
  filtered.take (max 1 limit).toNat

/-- Model of `list_emails_fs` (`mcp_server/utils.py` lines 112-165).
`files` is the result of `_safe_load` on each `MAIL_DIR/*.json` in
sorted-glob order: `none` models a file that cannot be read, fails to
parse as JSON, or parses to a falsy value (the `if not data: continue`
branch).  `query = none` models the `None` default; a falsy `query`
(`none` or `some ""`) disables filtering. -/
def list_emails_fs (parse : String → Option Int) (files : List (Option Record))
    (query : Option String) (limit : Int) : List Summary :=
  (selectedRecs parse files query limit).map summaryOf

theorem insertDesc_perm {α : Type} (key : α → Int) (r : α) (l : List α) :
    (insertDesc key r l).Perm (r :: l) := by
  induction l with
  | nil => simp [insertDesc]
  | cons x xs ih =>
    by_cases h : key x ≤ key r
    · simp [insertDesc, h]
    · simp only [insertDesc, if_neg h]
      exact (ih.cons x).trans (List.Perm.swap r x xs)

theorem sortDesc_perm {α : Type} (key : α → Int) (l : List α) :
    (sortDesc key l).Perm l := by
  induction l with
  | nil => simp [sortDesc]
  | cons r rs ih =>
    exact (insertDesc_perm key r (sortDesc key rs)).trans (ih.cons r)

theorem mem_insertDesc {α : Type} (key : α → Int) (r a : α) (l : List α) :
    a ∈ insertDesc key r l ↔ a = r ∨ a ∈ l := by
  rw [(insertDesc_perm key r l).mem_iff, List.mem_cons]

theorem insertDesc_pairwise {α : Type} (key : α → Int) (r : α) (l : List α)
    (h : l.Pairwise (fun a b => key b ≤ key a)) :
    (insertDesc key r l).Pairwise (fun a b => key b ≤ key a) := by
  induction l with
  | nil => simp [insertDesc]
  | cons x xs ih =>
    rcases List.pairwise_cons.mp h with ⟨hx, hxs⟩
    by_cases hle : key x ≤ key r
    · rw [insertDesc, if_pos hle]
      refine List.pairwise_cons.mpr ⟨?_, h⟩
      intro y hy
      rcases List.mem_cons.mp hy with rfl | hy'
      · exact hle
      · exact (hx y hy').trans hle
    · rw [insertDesc, if_neg hle]
      refine List.pairwise_cons.mpr ⟨?_, ih hxs⟩
      intro y hy
      rcases (mem_insertDesc key r y xs).mp hy with rfl | hy'
      · exact le_of_lt (lt_of_not_le hle)
      · exact hx y hy'

theorem sortDesc_pairwise {α : Type} (key : α → Int) (l : List α) :
    (sortDesc key l).Pairwise (fun a b => key b ≤ key a) := by
  induction l with
  | nil => simp [sortDesc]
  | cons r rs ih => exact insertDesc_pairwise key r (sortDesc key rs) ih

theorem mem_filterMap_id {α : Type} (files : List (Option α)) (r : α) :
    r ∈ files.filterMap id ↔ some r ∈ files := by
  simp [List.mem_filterMap]

theorem pairwise_head_le {α : Type} (key : α → Int) (x : α) (t : List α)
    (h : (x :: t).Pairwise (fun a b => key b ≤ key a)) :
    ∀ a ∈ x :: t, key a ≤ key x := by
  intro a ha
  rcases List.mem_cons.mp ha with rfl | ha'
  · exact le_refl _
  · exact (List.pairwise_cons.mp h).1 a ha'

/-- Partial tabulation of `datetime.fromisoformat(s).timestamp()` for the
concrete timestamp strings used in this file: the 1950 instant is a valid
aware ISO-8601 timestamp whose POSIX timestamp is the negative number
-631152000; the 2024/2025 instants are valid with the listed values; any
other string used below (such as "garbage") raises `ValueError`, i.e.
`none`. -/
def demoParse : String → Option Int
  | "1950-01-01T00:00:00+00:00" => some (-631152000)
  | "2024-01-01T00:00:00+00:00" => some 1704067200
  | "2025-01-01T00:00:00+00:00" => some 1735689600
  | "2025-06-01T00:00:00+00:00" => some 1748736000
  | _ => none

/-- Stored record with a parsable, pre-epoch `stored_at`. -/
def recPreEpoch : Record :=
  { id := some "pre-epoch", stored_at := some "1950-01-01T00:00:00+00:00" }

/-- Stored record whose `stored_at` does not parse. -/
def recUnparsable : Record :=
  { id := some "unparsable", stored_at := some "garbage" }

/-- C5 counterexample.  The claim says the listing is ordered by
`stored_at` descending with unparsable timestamps sorted as oldest, so on
this store the unparsable record should come last.  In the code
`_parse_iso` maps an unparsable timestamp to `0.0` (the epoch), which
sorts as *newer* than a record whose timestamp parses to a pre-epoch
(negative) value: the unparsable record comes first, not last. -/
theorem c5_counterexample :
    list_emails_fs demoParse [some recPreEpoch, some recUnparsable] none 50
        = [summaryOf recUnparsable, summaryOf recPreEpoch]
      ∧ summaryOf recUnparsable ≠ summaryOf recPreEpoch := by
  constructor
  · rfl
  · decide

/-- C5, amended: `list` returns at most `max(1, limit)` summaries (for a
falsy query, exactly `min (max 1 limit) (number of loadable records)`, so
`limit ≤ 0` still returns one item on a non-empty store); the selected
records are ordered by the `_parse_iso` key descending, where a record
whose `stored_at` does not parse gets the epoch key `0` (oldest among
records stored at or after the epoch, but newer than pre-epoch records);
each summary is exactly the `id/subject/from/to/date` projection; and
`limit = 1` returns exactly the record with the strictly greatest key. -/
theorem c5_list_spec (parse : String → Option Int) (files : List (Option Record))
    (lim : Int) (rStar : Record)
    (hmem : rStar ∈ files.filterMap id)
    (hmax : ∀ r ∈ files.filterMap id, r ≠ rStar → parseIsoKey parse r < parseIsoKey parse rStar) :
    (∀ q l, (list_emails_fs parse files q l).length ≤ (max 1 l).toNat)
    ∧ (list_emails_fs parse files none lim).length
        = min (max 1 lim).toNat (files.filterMap id).length
    ∧ (∀ r : Record, parse (r.stored_at.getD "") = none → parseIsoKey parse r = 0)
    ∧ (∀ q l, list_emails_fs parse files q l = (selectedRecs parse files q l).map summaryOf
        ∧ (selectedRecs parse files q l).Pairwise
            (fun a b => parseIsoKey parse b ≤ parseIsoKey parse a))
    ∧ list_emails_fs parse files none 1 = [summaryOf rStar] := by
  have key := parseIsoKey parse
  refine ⟨?_, ?_, ?_, ?_, ?_⟩
  · intro q l
    simp only [list_emails_fs, selectedRecs, List.length_map, List.length_take]
    exact min_le_left _ _
  · simp only [list_emails_fs, selectedRecs, List.length_map, List.length_take]
    rw [(sortDesc_perm (parseIsoKey parse) (files.filterMap id)).length_eq]
  · intro r hr
    simp [parseIsoKey, hr]
  · intro q l
    constructor
    · rfl
    · have hsorted := sortDesc_pairwise (parseIsoKey parse) (files.filterMap id)
      have hfil : (match q with
          | none => sortDesc (parseIsoKey parse) (files.filterMap id)
          | some s => if s = "" then sortDesc (parseIsoKey parse) (files.filterMap id)
              else (sortDesc (parseIsoKey parse) (files.filterMap id)).filter
                (queryMatches s)).Pairwise
            (fun a b => parseIsoKey parse b ≤ parseIsoKey parse a) := by
        match q with
        | none => exact hsorted
        | some s =>
          by_cases hs : s = ""
          · simpa [hs] using hsorted
          · simpa [hs] using hsorted.filter (queryMatches s)
      simpa only [selectedRecs] using List.Pairwise.sublist (List.take_sublist _ _) hfil
  · have hperm := sortDesc_perm (parseIsoKey parse) (files.filterMap id)
    have hmem' : rStar ∈ sortDesc (parseIsoKey parse) (files.filterMap id) :=
      hperm.mem_iff.mpr hmem
    obtain ⟨x, t, hxt⟩ : ∃ x t, sortDesc (parseIsoKey parse) (files.filterMap id) = x :: t := by
      cases hs : sortDesc (parseIsoKey parse) (files.filterMap id) with
      | nil => rw [hs] at hmem'; cases hmem'
      | cons x t => exact ⟨x, t, rfl⟩
    have hx_mem : x ∈ files.filterMap id := hperm.mem_iff.mp (hxt ▸ List.mem_cons_self x t)
    have hx_le : parseIsoKey parse rStar ≤ parseIsoKey parse x := by
      have := pairwise_head_le (parseIsoKey parse) x t
        (hxt ▸ sortDesc_pairwise (parseIsoKey parse) (files.filterMap id))
      exact this rStar (hxt ▸ hmem')
    have hx_eq : x = rStar := by
      by_contra hne
      exact absurd hx_le (not_le_of_lt (hmax x hx_mem hne))
    have : selectedRecs parse files none 1 = [x] := by
      simp only [selectedRecs, hxt]
      rfl
    rw [list_emails_fs, this, hx_eq]
    rfl

/-- Witness for c5_list_spec: a three-message store where the third
record has the strictly newest `stored_at`; `limit = 1` returns exactly
its summary. -/
def recJan24 : Record := { id := some "a", stored_at := some "2024-01-01T00:00:00+00:00" }

def recJan25 : Record := { id := some "b", stored_at := some "2025-01-01T00:00:00+00:00" }

def recJun25 : Record := { id := some "c", stored_at := some "2025-06-01T00:00:00+00:00" }

theorem c5_witness :
    list_emails_fs demoParse [some recJan24, some recJan25, some recJun25] none 1
      = [summaryOf recJun25] :=
  (c5_list_spec demoParse [some recJan24, some recJan25, some recJun25] 1 recJun25
    (by decide) (by decide)).2.2.2.2

/-- C6: with a non-empty query, `list` returns exactly the records whose
haystack (lower-cased `subject | from | to-joined | text`) contains the
lower-cased query as a literal substring, subject to the
`max(1, limit)` slice; records differing only in fields outside that
haystack (e.g. `html`, `cc`, `bcc`) are treated identically; an empty
query behaves like no query (all records, subject to the limit). -/
theorem c6_query_filter (parse : String → Option Int) (files : List (Option Record))
    (q : String) (lim : Int) (hq : q ≠ "") :
    (list_emails_fs parse files (some q) lim
        = (((sortDesc (parseIsoKey parse) (files.filterMap id)).filter
            (queryMatches q)).take (max 1 lim).toNat).map summaryOf)
    ∧ (∀ s ∈ list_emails_fs parse files (some q) lim,
        ∃ r, some r ∈ files ∧ s = summaryOf r ∧ queryMatches q r = true)
    ∧ ((files.filterMap id).countP (queryMatches q) ≤ (max 1 lim).toNat →
        ∀ r : Record, some r ∈ files → queryMatches q r = true →
          summaryOf r ∈ list_emails_fs parse files (some q) lim)
    ∧ (∀ r r' : Record, r.subject = r'.subject → r.fromAddr = r'.fromAddr →
        r.toAddrs = r'.toAddrs → r.text = r'.text → queryMatches q r = queryMatches q r')
    ∧ (∀ l, list_emails_fs parse files (some "") l = list_emails_fs parse files none l) := by
  have hform : list_emails_fs parse files (some q) lim
      = (((sortDesc (parseIsoKey parse) (files.filterMap id)).filter
          (queryMatches q)).take (max 1 lim).toNat).map summaryOf := by
    simp [list_emails_fs, selectedRecs, hq]
  refine ⟨hform, ?_, ?_, ?_, ?_⟩
  · intro s hs
    rw [hform] at hs
    rcases List.mem_map.mp hs with ⟨r, hr, rfl⟩
    have hr' := List.take_subset _ _ hr
    rcases List.mem_filter.mp hr' with ⟨hr'', hmatch⟩
    exact ⟨r, (mem_filterMap_id files r).mp
      ((sortDesc_perm (parseIsoKey parse) _).mem_iff.mp hr''), rfl, hmatch⟩
  · intro hcount r hrf hrm
    have hperm := sortDesc_perm (parseIsoKey parse) (files.filterMap id)
    have hlen : ((sortDesc (parseIsoKey parse) (files.filterMap id)).filter
        (queryMatches q)).length ≤ (max 1 lim).toNat := by
      rw [← List.countP_eq_length_filter, hperm.countP_eq]
      exact hcount
    rw [hform, List.take_of_length_le hlen]
    exact List.mem_map.mpr ⟨r, List.mem_filter.mpr
      ⟨hperm.mem_iff.mpr ((mem_filterMap_id files r).mpr hrf), hrm⟩, rfl⟩
  · intro r r' h1 h2 h3 h4
    unfold queryMatches hay
    rw [h1, h2, h3, h4]
  · intro l
    simp [list_emails_fs, selectedRecs]

/-- Records for the c6 witness. -/
def recReport : Record :=
  { id := some "r1", subject := some "Weekly Report", stored_at := some "2024-01-01T00:00:00+00:00" }

def recOther : Record :=
  { id := some "r2", subject := some "Lunch plans", stored_at := some "2025-01-01T00:00:00+00:00" }

theorem c6_witness :
    summaryOf recReport
      ∈ list_emails_fs demoParse [some recReport, some recOther] (some "report") 5 :=
  (c6_query_filter demoParse [some recReport, some recOther] "report" 5
      (by decide)).2.2.1 (by decide) recReport (by decide) (by decide)

/-- C10: a metadata file that `_safe_load` cannot read or parse (or that
parses to a falsy value) is silently dropped: inserting such a file
anywhere in the store leaves the result of `list_emails_fs` unchanged,
for every query and limit (and the function returns a list, never an
error value). -/
theorem c10_corrupt_skipped (parse : String → Option Int)
    (l1 l2 : List (Option Record)) (q : Option String) (lim : Int) :
    list_emails_fs parse (l1 ++ none :: l2) q lim = list_emails_fs parse (l1 ++ l2) q lim := by
  have h : (l1 ++ none :: l2).filterMap id = (l1 ++ l2).filterMap id := by
    simp [List.filterMap_append]
  simp only [list_emails_fs, selectedRecs, h]

/-- A parsed MIME message or part (`email.message.Message` under
`policy.default`), as observed through the accessors the code calls.
A `leaf` is a non-multipart part: `payload` is the result of
`get_payload(decode=True)` — already transfer-decoded bytes — with
`none` covering both a `None` return and a raised exception; `content`
is the result of `get_content()`, with `none` when it raises (e.g. a
`LookupError` on an undeclared/unknown charset); `charset` is the result
of `get_content_charset()`.  A `multi` is a multipart container
(`is_multipart()` true): on it `get_payload(decode=True)` returns `None`
and `get_content()` raises, so the corresponding accessors below return
`none`. -/
inductive Mime where
  | leaf (ctype : String) (disp : Option String) (filename : Option String)
      (charset : Option String) (payload : Option (List Nat)) (content : Option String)
  | multi (ctype : String) (disp : Option String) (filename : Option String)
      (parts : List Mime)

/-- Content type of a part (`get_content_type()`). -/
def Mime.ctype : Mime → String
  | .leaf c _ _ _ _ _ => c
  | .multi c _ _ _ => c

/-- Content disposition of a part (`get_content_disposition()`). -/
def Mime.disp : Mime → Option String
  | .leaf _ d _ _ _ _ => d
  | .multi _ d _ _ => d

/-- Filename of a part (`get_filename()`). -/
def Mime.filename : Mime → Option String
  | .leaf _ _ f _ _ _ => f
  | .multi _ _ f _ => f

/-- Declared charset of a part (`get_content_charset()`). -/
def Mime.charset : Mime → Option String
  | .leaf _ _ _ cs _ _ => cs
  | .multi _ _ _ _ => none

/-- Decoded payload bytes of a part (`get_payload(decode=True)`). -/
def Mime.payload : Mime → Option (List Nat)
  | .leaf _ _ _ _ p _ => p
  | .multi _ _ _ _ => none

/-- Decoded text of a part (`get_content()`), `none` when it raises. -/
def Mime.content : Mime → Option String
  | .leaf _ _ _ _ _ ct => ct
  | .multi _ _ _ _ => none

/-- The expression `(part.get_content_disposition() or "").lower()`. -/
def Mime.dispLower (p : Mime) : String := lowerS (p.disp.getD "")

/-- The expression `part.get_content_charset() or "utf-8"` (an empty or
absent charset falls back to utf-8). -/
def Mime.charsetOr (p : Mime) : String :=
  match p.charset with
  | none => "utf-8"
  | some s => if s = "" then "utf-8" else s

mutual

/-- Depth-first preorder traversal, modelling `Message.walk()`: yields
the part itself, then recursively each sub-part of a multipart. -/
def Mime.walk : Mime → List Mime
  | .leaf c d f cs p ct => [.leaf c d f cs p ct]
  | .multi c d f parts => .multi c d f parts :: Mime.walkParts parts

def Mime.walkParts : List Mime → List Mime
  | [] => []
  | p :: ps => p.walk ++ Mime.walkParts ps

end

/-- Python truthiness of an optional string (`bool(filename)`): `None`
and the empty string are falsy. -/
def filenameTruthy : Option String → Bool
  | none => false
  | some s => !(s == "")

/-- The attachment test used by both `_attachment_metadata`
(`mail_sink/server.py` line 135) and `_extract_textual_attachments`
(`mcp_server/utils.py` line 208): disposition equal to "attachment", or
a truthy filename. -/
def isAttachmentPart (p : Mime) : Bool :=
  p.dispLower == "attachment" || filenameTruthy p.filename

/-- The `decode` parameter used throughout: `decode cs bs` models Python
`bs.decode(cs, errors="replace")`, which returns a string for every byte
sequence when `cs` names a known codec, and raises `LookupError`
(modelled by `none`) when `cs` is unknown. -/
abbrev ByteDecoder := String → List Nat → Option String

/-- The body a part yields in `_best_effort_bodies`
(`mail_sink/server.py` lines 88-96 / 98-106): `get_content()`, falling
back to `get_payload(decode=True).decode(charset or "utf-8",
errors="replace")`, and `none` when both attempts raise (the final
`pass`). -/
def partBody (dec : ByteDecoder) (p : Mime) : Option String :=
  match p.content with
  | some s => some s
  | none =>
    match p.payload with
    | some bs => dec p.charsetOr bs
    | none => none

/-- Loop body of `_best_effort_bodies` for the multipart case
(`mail_sink/server.py` lines 82-108): walk the parts, skip attachment
dispositions (`continue`), fill `text` from the first `text/plain` part
whose body is obtainable and `html` from the first such `text/html`
part, and `break` once both are set. -/
def bodiesLoop (dec : ByteDecoder) : List Mime → Option String → Option String →
    Option String × Option String
  | [], t, h => (t, h)
  | p :: ps, t, h =>
    if p.dispLower == "attachment" then bodiesLoop dec ps t h
    else
      let t' := if p.ctype == "text/plain" && t.isNone then partBody dec p else t
      let h' := if p.ctype == "text/html" && h.isNone then partBody dec p else h
      if t'.isSome && h'.isSome then (t', h') else bodiesLoop dec ps t' h'

/-- Model of `_best_effort_bodies` (`mail_sink/server.py` lines 73-124). -/
def _best_effort_bodies (dec : ByteDecoder) (m : Mime) : Option String × Option String :=
  match m with
  | .multi c d f parts => bodiesLoop dec (Mime.walk (.multi c d f parts)) none none
  | .leaf c d f cs p ct =>
    let payload := partBody dec (.leaf c d f cs p ct)
    if c == "text/plain" then (payload, none)
    else if c == "text/html" then (none, payload)
    else (none, none)

/-- Eligibility of a part for body selection: not an attachment
disposition, and of the given content type. -/
def eligible (ct : String) (p : Mime) : Bool :=
  !(p.dispLower == "attachment") && p.ctype == ct

/-- Specification-side body selection: the first obtainable body among
eligible parts, in walk order. -/
def firstBody (dec : ByteDecoder) (ct : String) (ps : List Mime) : Option String :=
  ((ps.filter (eligible ct)).filterMap (partBody dec)).head?

/-- Right-biased option choice (`orO a b` is `a` unless `a` is `none`). -/
def orO : Option String → Option String → Option String
  | some a, _ => some a
  | none, b => b

theorem orO_assoc (a b c : Option String) : orO (orO a b) c = orO a (orO b c) := by
  cases a <;> rfl

theorem firstBody_cons_pos (dec : ByteDecoder) (ct : String) (p : Mime) (ps : List Mime)
    (h : eligible ct p = true) :
    firstBody dec ct (p :: ps) = orO (partBody dec p) (firstBody dec ct ps) := by
  simp only [firstBody, List.filter_cons, h, if_true, List.filterMap_cons]
  cases partBody dec p <;> simp [orO]

theorem firstBody_cons_neg (dec : ByteDecoder) (ct : String) (p : Mime) (ps : List Mime)
    (h : eligible ct p = false) :
    firstBody dec ct (p :: ps) = firstBody dec ct ps := by
  simp only [firstBody, List.filter_cons, h, Bool.false_eq_true, if_false]

theorem bodiesLoop_spec (dec : ByteDecoder) (ps : List Mime) :
    ∀ t h, bodiesLoop dec ps t h
      = (orO t (firstBody dec "text/plain" ps), orO h (firstBody dec "text/html" ps)) := by
  induction ps with
  | nil => intro t h; cases t <;> cases h <;> rfl
  | cons p ps ih =>
    intro t h
    by_cases hd : (p.dispLower == "attachment") = true
    · have h1 : eligible "text/plain" p = false := by simp [eligible, hd]
      have h2 : eligible "text/html" p = false := by simp [eligible, hd]
      rw [firstBody_cons_neg dec _ _ _ h1, firstBody_cons_neg dec _ _ _ h2]
      simp only [bodiesLoop, if_pos hd]
      exact ih t h
    · have hd' : (p.dispLower == "attachment") = false := Bool.eq_false_iff.mpr hd
      have hdne : p.dispLower ≠ "attachment" := by simpa using hd'
      by_cases hp : (p.ctype == "text/plain") = true
      · have hctype : p.ctype = "text/plain" := eq_of_beq hp
        have hh : (p.ctype == "text/html") = false := by simp [hctype]
        have e1 : eligible "text/plain" p = true := by simp [eligible, hd', hp]
        have e2 : eligible "text/html" p = false := by simp [eligible, hh]
        rw [firstBody_cons_pos dec _ _ _ e1, firstBody_cons_neg dec _ _ _ e2]
        cases t <;> cases h <;> cases hB : partBody dec p <;>
          simp [bodiesLoop, hd', hdne, hp, hh, hB, ih, orO]
      · have hp' : (p.ctype == "text/plain") = false := Bool.eq_false_iff.mpr hp
        have e1 : eligible "text/plain" p = false := by simp [eligible, hp']
        rw [firstBody_cons_neg dec _ _ _ e1]
        by_cases hh : (p.ctype == "text/html") = true
        · have e2 : eligible "text/html" p = true := by simp [eligible, hd', hh]
          rw [firstBody_cons_pos dec _ _ _ e2]
          cases t <;> cases h <;> cases hB : partBody dec p <;>
            simp [bodiesLoop, hd', hdne, hp', hh, hB, ih, orO]
        · have hh' : (p.ctype == "text/html") = false := Bool.eq_false_iff.mpr hh
          have e2 : eligible "text/html" p = false := by simp [eligible, hh']
          rw [firstBody_cons_neg dec _ _ _ e2]
          cases t <;> cases h <;>
            simp [bodiesLoop, hd', hdne, hp', hh', ih, orO]

/-- C7, amended: for a multipart message `_best_effort_bodies` walks all
parts depth-first, skips parts with attachment disposition, and assigns
to `text` (resp. `html`) the first walked non-attachment `text/plain`
(resp. `text/html`) part whose body is obtainable — a part whose
`get_content()` and fallback payload decode both raise is skipped and a
later part may supply the body (this is where the claim's "first
encountered part" wording fails); the early `break` once both are found
does not affect the result.  For a non-multipart message the single body
is assigned to `text` or `html` according to its content type, and any
other content type yields neither. -/
theorem c7_bodies_spec (dec : ByteDecoder) :
    (∀ c d f parts,
        _best_effort_bodies dec (.multi c d f parts)
          = (firstBody dec "text/plain" (Mime.walk (.multi c d f parts)),
             firstBody dec "text/html" (Mime.walk (.multi c d f parts))))
    ∧ (∀ c d f cs p ct,
        _best_effort_bodies dec (.leaf c d f cs p ct)
          = (if c = "text/plain" then (partBody dec (.leaf c d f cs p ct), none)
             else if c = "text/html" then (none, partBody dec (.leaf c d f cs p ct))
             else (none, none))) := by
  constructor
  · intro c d f parts
    rw [_best_effort_bodies, bodiesLoop_spec]
    rfl
  · intro c d f cs p ct
    simp only [_best_effort_bodies]
    by_cases h1 : c = "text/plain"
    · simp [h1]
    · by_cases h2 : c = "text/html" <;> simp [h1, h2]

/-- Byte decoding with `errors="replace"` for the concrete codec
environment of the counterexamples: "utf-8" is a known codec (all
concrete payloads below are ASCII byte sequences, which utf-8 decodes to
the corresponding characters), while "x-bogus" names no Python codec, so
`bytes.decode("x-bogus", errors="replace")` raises `LookupError`
(`none`).  This tabulates CPython behaviour on exactly the inputs used
below. -/
def dec0 : ByteDecoder := fun cs bs =>
  if cs = "utf-8" then some (String.mk (bs.map (fun b => Char.ofNat b))) else none

/-- A `text/plain` part declaring `charset="x-bogus"`: `get_content()`
raises `LookupError` and so does the fallback
`payload.decode("x-bogus", errors="replace")`, so no body is obtainable.
Its payload spells "first". -/
def partBogusPlain : Mime :=
  .leaf "text/plain" none none (some "x-bogus") (some [102, 105, 114, 115, 116]) none

/-- A well-formed `text/plain` part whose body decodes to "second". -/
def partGoodPlain : Mime :=
  .leaf "text/plain" none none (some "utf-8")
    (some [115, 101, 99, 111, 110, 100]) (some "second")

/-- The multipart message for the C7 counterexample. -/
def msgTwoPlain : Mime := .multi "multipart/mixed" none none [partBogusPlain, partGoodPlain]

/-- C7 counterexample.  The first encountered non-attachment `text/plain`
part of `msgTwoPlain` is `partBogusPlain`, whose body is unobtainable
(`partBody` is `none`); the claim says the first encountered `text/plain`
part is assigned to `text`, yet the code assigns the body of the *second*
part, "second". -/
theorem c7_counterexample :
    ((Mime.walk msgTwoPlain).filter (eligible "text/plain")).head? = some partBogusPlain
    ∧ partBody dec0 partBogusPlain = none
    ∧ _best_effort_bodies dec0 msgTwoPlain = (some "second", none) :=
  ⟨rfl, rfl, rfl⟩

/-- Loop of `_attachment_metadata` (`mail_sink/server.py` lines 132-148)
over a list of walked parts: parts with attachment disposition or a
truthy filename contribute an entry with `filename or ""`, the content
type, and `len(get_payload(decode=True) or b"")` — with `size = 0` also
when decoding raises (`size is None` branch). -/
def attachLoop : List Mime → List AttachmentEntry
  | [] => []
  | p :: ps =>
    if isAttachmentPart p then
      { filename := p.filename.getD "", content_type := p.ctype,
        size_bytes := (p.payload.getD []).length, text := none } :: attachLoop ps
    else attachLoop ps

/-- Model of `_attachment_metadata` (`mail_sink/server.py` lines 127-149). -/
def _attachment_metadata (m : Mime) : List AttachmentEntry := attachLoop m.walk

theorem attachLoop_eq_filter_map (ps : List Mime) :
    attachLoop ps = (ps.filter isAttachmentPart).map
      (fun p => { filename := p.filename.getD "", content_type := p.ctype,
                  size_bytes := (p.payload.getD []).length, text := none }) := by
  induction ps with
  | nil => rfl
  | cons p ps ih =>
    by_cases h : isAttachmentPart p = true
    · rw [attachLoop, if_pos h, List.filter_cons_of_pos h, List.map_cons, ih]
    · rw [attachLoop, if_neg h, List.filter_cons_of_neg h, ih]

/-- C8: a walked part is reported by `_attachment_metadata` exactly when
its disposition is "attachment" or it carries a (non-empty) filename —
so a named inline part is reported — and each entry holds the filename
(empty string if none), the content type, and `size_bytes` equal to the
decoded payload byte length, with `0` when decoding fails or returns
`None` (the model's `payload` field already holds transfer-decoded
bytes, so this is the decoded, not wire-encoded, length). -/
theorem c8_attachment_metadata_spec (m : Mime) :
    _attachment_metadata m
      = ((Mime.walk m).filter isAttachmentPart).map
          (fun p => { filename := p.filename.getD "", content_type := p.ctype,
                      size_bytes := (p.payload.getD []).length, text := none })
    ∧ (∀ p : Mime, isAttachmentPart p = true ↔
        (p.dispLower = "attachment" ∨ ∃ f, p.filename = some f ∧ f ≠ ""))
    ∧ (∀ p : Mime, ∀ bs, p.payload = some bs → (p.payload.getD []).length = bs.length)
    ∧ (∀ p : Mime, p.payload = none → (p.payload.getD []).length = 0) := by
  refine ⟨attachLoop_eq_filter_map _, ?_, ?_, ?_⟩
  · intro p
    cases hf : p.filename with
    | none => simp [isAttachmentPart, filenameTruthy, hf]
    | some f =>
      by_cases hfe : f = "" <;> simp [isAttachmentPart, filenameTruthy, hf, hfe]
  · intro p bs h
    rw [h]
    rfl
  · intro p h
    rw [h]
    rfl

/-- A named inline part without attachment disposition (the spec's
inline-but-named case). -/
def namedInlinePart : Mime :=
  .leaf "application/octet-stream" none (some "data.bin") none (some [1, 2, 3, 4]) none

/-- Witness for c8_attachment_metadata_spec: a named part with no
attachment disposition is classified as an attachment, and its size is
the decoded payload length. -/
theorem c8_witness :
    isAttachmentPart namedInlinePart = true
    ∧ (namedInlinePart.payload.getD []).length = 4 :=
  ⟨((c8_attachment_metadata_spec namedInlinePart).2.1 namedInlinePart).mpr
      (Or.inr ⟨"data.bin", rfl, by decide⟩),
    (c8_attachment_metadata_spec namedInlinePart).2.2.1 namedInlinePart [1, 2, 3, 4] rfl⟩

/-- Allowed content types for inline-text extraction (`_ALLOWED_CT` in
`mcp_server/utils.py` lines 169-176). -/
def _ALLOWED_CT : List String :=
  ["text/plain", "text/csv", "application/json", "application/yaml",
   "text/yaml", "application/x-yaml"]

/-- Allowed filename extensions (`_ALLOWED_EXT`, line 178). -/
def _ALLOWED_EXT : List String := [".txt", ".csv", ".json", ".yaml", ".yml"]

/-- Upper bound `_MAX_TEXT_BYTES = 512 * 1024` (line 181). -/
def _MAX_TEXT_BYTES : Nat := 512 * 1024

/-- Final path component: the characters after the last '/'.  This is
`pathlib.PurePath.name` for the slash-free or simple relative names that
occur as attachment filenames (trailing-slash and drive corner cases of
pathlib are out of scope). -/
def basenameChars (f : String) : List Char :=
  (f.data.reverse.takeWhile (fun c => !(c == '/'))).reverse

/-- Index of the last '.' in a character list (Python `str.rfind(".")`,
with `none` for "not found"). -/
def lastDotIdx : List Char → Option Nat
  | [] => none
  | c :: cs =>
    match lastDotIdx cs with
    | some i => some (i + 1)
    | none => if c = '.' then some 0 else none

/-- Model of `pathlib.Path(f).suffix`: the substring of the name from
its last dot, empty when there is no dot, the dot is leading (a hidden
file) or the dot is the final character. -/
def pathSuffix (f : String) : String :=
  let name := basenameChars f
  match lastDotIdx name with
  | none => ""
  | some i => if 0 < i ∧ i < name.length - 1 then String.mk (name.drop i) else ""

/-- Model of `_is_allowed_attachment` (`mcp_server/utils.py` lines
184-191): the content type is in the allow-list, or the filename is
truthy and its lower-cased suffix is in the extension allow-list. -/
def _is_allowed_attachment (part_filename : Option String) (content_type : String) : Bool :=
  if _ALLOWED_CT.contains content_type then true
  else
    match part_filename with
    | none => false
    | some f => if f = "" then false else _ALLOWED_EXT.contains (lowerS (pathSuffix f))

/-- Loop of `_extract_textual_attachments` (`mcp_server/utils.py` lines
205-228) over the walked parts.  `dec` is the replace-mode byte decoder
(see `ByteDecoder`); `decU8` models `preview.decode("utf-8",
errors="replace")`, which succeeds on every byte sequence (the fallback
`except` branch). -/
def extractLoop (dec : ByteDecoder) (decU8 : List Nat → String) :
    List Mime → List AttachmentEntry
  | [] => []
  | p :: ps =>
    if isAttachmentPart p then
      (let payload := p.payload.getD []
       let base : AttachmentEntry :=
         { filename := p.filename.getD "", content_type := p.ctype,
           size_bytes := payload.length, text := none }
       if _is_allowed_attachment p.filename p.ctype then
         { base with
           text := some (match dec p.charsetOr (payload.take _MAX_TEXT_BYTES) with
             | some s => s
             | none => decU8 (payload.take _MAX_TEXT_BYTES)) }
       else base) :: extractLoop dec decU8 ps
    else extractLoop dec decU8 ps

/-- Model of `_extract_textual_attachments` (`mcp_server/utils.py` lines
194-229).  `fsRaw` maps a path to the message parsed (by
`BytesParser(policy=default).parsebytes`) from the bytes of the regular
file stored there, or `none` when `eml_path.exists()` is false; parsing
itself never raises, so an existing file always yields a message. -/
def _extract_textual_attachments (dec : ByteDecoder) (decU8 : List Nat → String)
    (fsRaw : String → Option Mime) (path : String) : List AttachmentEntry :=
  match fsRaw path with
  | none => []
  | some m => extractLoop dec decU8 m.walk

/-- C9: an attachment entry produced by the extraction loop carries
inline `text` exactly when the declared content type is in the
allow-list or the (truthy) filename's lower-cased suffix is in the
extension allow-list; the text is obtained by truncating the decoded
payload to `_MAX_TEXT_BYTES = 512 KiB` *before* decoding it with the
part's declared charset (falling back to "utf-8" when absent or empty),
and with the always-succeeding utf-8 replace decode when that charset is
unknown; non-allowed attachments get no `text`. -/
theorem c9_enrichment_spec (dec : ByteDecoder) (decU8 : List Nat → String) (m : Mime) :
    (extractLoop dec decU8 (Mime.walk m)
      = ((Mime.walk m).filter isAttachmentPart).map (fun p =>
          { filename := p.filename.getD "", content_type := p.ctype,
            size_bytes := (p.payload.getD []).length,
            text :=
              if _is_allowed_attachment p.filename p.ctype then
                some (match dec p.charsetOr ((p.payload.getD []).take _MAX_TEXT_BYTES) with
                  | some s => s
                  | none => decU8 ((p.payload.getD []).take _MAX_TEXT_BYTES))
              else none }))
    ∧ (∀ fn ct, _is_allowed_attachment fn ct = true ↔
        (ct ∈ _ALLOWED_CT ∨ ∃ f, fn = some f ∧ f ≠ "" ∧ lowerS (pathSuffix f) ∈ _ALLOWED_EXT))
    ∧ _MAX_TEXT_BYTES = 524288 := by
  refine ⟨?_, ?_, rfl⟩
  · induction Mime.walk m with
    | nil => rfl
    | cons p ps ih =>
      by_cases h : isAttachmentPart p = true
      · rw [extractLoop, if_pos h, List.filter_cons_of_pos h, List.map_cons, ih]
        by_cases ha : _is_allowed_attachment p.filename p.ctype = true
        · simp [ha]
        · simp [ha]
      · rw [extractLoop, if_neg h, List.filter_cons_of_neg h, ih]
  · intro fn ct
    unfold _is_allowed_attachment
    by_cases hct : _ALLOWED_CT.contains ct = true
    · simp only [hct, if_true]
      constructor
      · intro _
        exact Or.inl (by simpa using hct)
      · intro _
        trivial
    · have hct' : ¬ ct ∈ _ALLOWED_CT := by simpa using hct
      simp only [Bool.not_eq_true] at hct
      rw [hct]
      cases fn with
      | none => simp [hct']
      | some f =>
        by_cases hf : f = ""
        · simp [hf, hct']
        · simp [hf, hct']

/-- Filesystem as seen by `get_email_fs`.  `meta eid` is the state of
`MAIL_DIR/(eid).json`: `none` when the file does not exist, `some none`
when it exists but `_safe_load` returns `None`, `some (some data)` when
it parses.  `raw p` is the message parsed from the regular file at path
`p`, `none` when no such file exists (see
`_extract_textual_attachments`). -/
structure MailFs where
  meta : String → Option (Option Record)
  raw : String → Option Mime

/-- Result of `get_email_fs`: the two error objects, a raised exception
escaping the function, or the returned record. -/
inductive GetResult where
  | notFound
  | readError
  | raised (err : String)
  | ok (record : Record)
deriving DecidableEq

/-- Model of `get_email_fs` (`mcp_server/utils.py` lines 232-251).
Note two source subtleties: `eml_path = Path(data.get("raw_path") or "")`
is *always* truthy (`pathlib` paths define no `__bool__`), so the
`else (data.get("attachments") or [])` fallback to the captured metadata
is dead code and `_extract_textual_attachments` is always called; and
when `raw_path` is empty or absent, `Path("")` is `Path(".")`, an
existing directory, so `read_bytes()` raises `IsADirectoryError`
(assuming, as for any running process, that the working directory
exists). -/
def get_email_fs (dec : ByteDecoder) (decU8 : List Nat → String) (fs : MailFs)
    (email_id : String) : GetResult :=
  match fs.meta email_id with
  | none => .notFound
  | some none => .readError
  | some (some data) =>
    let rawPath := data.raw_path.getD ""
    if rawPath = "" then .raised "IsADirectoryError"
    else .ok { data with attachments := _extract_textual_attachments dec decU8 fs.raw rawPath }

/-- C1, amended: for an id whose metadata artifact is present and
parsable and records a non-empty `raw_path` that no longer exists on
disk, `get_email_fs` does not fail, but it returns the record with an
*empty* attachment list — not the attachment metadata captured at
ingestion time (the captured-metadata fallback is unreachable because
`bool(Path(...))` is always true, and `_extract_textual_attachments`
returns `[]` for a missing file). -/
theorem c1_missing_raw_empty (dec : ByteDecoder) (decU8 : List Nat → String)
    (fs : MailFs) (eid : String) (data : Record) (p : String)
    (hm : fs.meta eid = some (some data)) (hp : data.raw_path = some p)
    (hne : p ≠ "") (hraw : fs.raw p = none) :
    get_email_fs dec decU8 fs eid = .ok { data with attachments := [] } := by
  rw [get_email_fs, hm]
  simp only [hp, Option.getD_some]
  rw [if_neg hne, _extract_textual_attachments, hraw]

/-- Captured attachment metadata used in the C1 counterexample. -/
def storedPdfEntry : AttachmentEntry :=
  { filename := "report.pdf", content_type := "application/pdf", size_bytes := 4 }

/-- Stored record for the C1 counterexample: parsable metadata with a
non-empty `raw_path` and one captured attachment entry. -/
def recWithRaw : Record :=
  { id := some "m1", raw_path := some "/mail/m1.eml", attachments := [storedPdfEntry] }

/-- Filesystem for the C1 counterexample: the metadata artifact for "m1"
is present and parses, but the raw artifact `/mail/m1.eml` has been
deleted out-of-band. -/
def fsRawDeleted : MailFs :=
  { meta := fun i => if i = "m1" then some (some recWithRaw) else none,
    raw := fun _ => none }

/-- C1 counterexample: the claim says `get` returns the attachment
metadata captured at ingestion time (here one pdf entry) when the raw
artifact is missing; the code instead returns the record with an empty
attachment list. -/
theorem c1_counterexample :
    get_email_fs dec0 (fun _ => "") fsRawDeleted "m1"
        = .ok { recWithRaw with attachments := [] }
      ∧ recWithRaw.attachments ≠ [] := by
  constructor
  · rfl
  · decide

/-- Witness for c1_missing_raw_empty at the counterexample store. -/
theorem c1_witness :
    get_email_fs dec0 (fun _ => "") fsRawDeleted "m1" = .ok { recWithRaw with attachments := [] } :=
  c1_missing_raw_empty dec0 (fun _ => "") fsRawDeleted "m1" recWithRaw "/mail/m1.eml"
    (by rfl) (by rfl) (by decide) (by rfl)

/-- Result record of `send_email_smtp`. -/
structure SendResult where
  success : Bool
  message_id : Option String
  error : Option String := none
deriving DecidableEq

/-- Outcome of a call to `send_email_smtp`: either an exception
propagates to the caller, or a `SendResult` is returned. -/
inductive SendOutcome where
  | raised (err : String)
  | returned (r : SendResult)
deriving DecidableEq

/-- Model of `_attach_files` (`mcp_server/utils.py` lines 27-47),
restricted to its control flow: `fsFile p` is true when the
(`expanduser`-resolved) path `p` exists and is a regular file.  Falsy
(empty) paths are skipped; the first non-existing path raises
`FileNotFoundError`, reported as `some p`; `none` means every path was
attached without error.  The attachment bodies added to the message are
not observed by any claim and are elided. -/
def _attach_files (fsFile : String → Bool) : List String → Option String
  | [] => none
  | p :: ps =>
    if p = "" then _attach_files fsFile ps
    else if fsFile p then _attach_files fsFile ps
    else some p

/-- Model of `send_email_smtp` (`mcp_server/utils.py` lines 50-99).
Header and body construction (lines 65-83) is pure and cannot raise, so
it is elided; `mid` is the generated `make_msgid()` value; `net` models
the `smtplib` transaction of lines 95-96 (`none` = delivered, `some e` =
an exception with text `e`, caught by the `except` into a failure
result).  The second component records whether `smtplib.SMTP(...)` was
entered, i.e. whether any network contact was attempted. -/
def send_email_smtp (fsFile : String → Bool) (net : Option String) (mid : String)
    (from_addr : String) (to_addrs : List String) (subject : String)
    (text_body html_body : Option String) (cc_addrs bcc_addrs : Option (List String))
    (attachments_paths : Option (List String)) : SendOutcome × Bool :=
  match (match attachments_paths with
         | none => none
         | some ps => _attach_files fsFile ps) with
  | some p => (.raised ("Attachment not found: " ++ p), false)
  | none =>
    match net with
    | none => (.returned { success := true, message_id := some mid }, true)
    | some e => (.returned { success := false, message_id := none, error := some e }, true)

theorem attach_files_some_of_bad (fsFile : String → Bool) (paths : List String)
    (hbad : ∃ p ∈ paths, p ≠ "" ∧ fsFile p = false) :
    ∃ q, _attach_files fsFile paths = some q ∧ q ≠ "" ∧ fsFile q = false := by
  induction paths with
  | nil => rcases hbad with ⟨p, hp, _⟩; cases hp
  | cons a ps ih =>
    by_cases ha : a = ""
    · rcases hbad with ⟨p, hp, hne, hff⟩
      rcases List.mem_cons.mp hp with rfl | hp'
      · exact absurd ha hne
      · rw [_attach_files, if_pos ha]
        exact ih ⟨p, hp', hne, hff⟩
    · by_cases hf : fsFile a = true
      · rcases hbad with ⟨p, hp, hne, hff⟩
        rcases List.mem_cons.mp hp with rfl | hp'
        · rw [hf] at hff; cases hff
        · rw [_attach_files, if_neg ha, if_pos hf]
          exact ih ⟨p, hp', hne, hff⟩
      · refine ⟨a, ?_, ha, Bool.eq_false_iff.mpr hf⟩
        rw [_attach_files, if_neg ha, if_neg hf]

/-- C2, amended: when some attachment path is non-empty and does not
reference an existing regular file, `send_email_smtp` raises
`FileNotFoundError` to its caller (it does not return a `SendResult`, so
no typed failure and no message id is produced), and no SMTP connection
is opened. -/
theorem c2_missing_attachment_raises (fsFile : String → Bool) (net : Option String)
    (mid from_addr subject : String) (to_addrs : List String)
    (text_body html_body : Option String) (cc_addrs bcc_addrs : Option (List String))
    (paths : List String)
    (hbad : ∃ p ∈ paths, p ≠ "" ∧ fsFile p = false) :
    ∃ q, send_email_smtp fsFile net mid from_addr to_addrs subject text_body html_body
        cc_addrs bcc_addrs (some paths)
      = (.raised ("Attachment not found: " ++ q), false) := by
  rcases attach_files_some_of_bad fsFile paths hbad with ⟨q, hq, -, -⟩
  exact ⟨q, by simp only [send_email_smtp.eq_def, hq]⟩

/-- C2 counterexample: with one nonexistent attachment path the call
raises (`FileNotFoundError("Attachment not found: missing.txt")`) instead
of returning a typed failure result — there is no `SendResult` at all —
and no SMTP connection is opened (second component false).  The claim
says `send` *returns* (never raises) a failure result. -/
theorem c2_counterexample :
    send_email_smtp (fun _ => false) none "mid1" "a@x" ["b@x"] "Hi" none none none none
        (some ["missing.txt"])
      = (.raised "Attachment not found: missing.txt", false)
    ∧ ∀ r : SendResult,
        (send_email_smtp (fun _ => false) none "mid1" "a@x" ["b@x"] "Hi" none none none none
          (some ["missing.txt"])).1 ≠ .returned r := by
  constructor
  · rfl
  · intro r h
    rw [show (send_email_smtp (fun _ => false) none "mid1" "a@x" ["b@x"] "Hi" none none none
        none (some ["missing.txt"])).1 = .raised "Attachment not found: missing.txt" from rfl]
      at h
    cases h

/-- Witness for c2_missing_attachment_raises. -/
theorem c2_witness :
    ∃ q, send_email_smtp (fun _ => false) none "mid1" "a@x" ["b@x"] "Hi" none none none none
        (some ["missing.txt"])
      = (.raised ("Attachment not found: " ++ q), false) :=
  c2_missing_attachment_raises (fun _ => false) none "mid1" "a@x" "Hi" ["b@x"] none none
    none none ["missing.txt"] ⟨"missing.txt", by decide, by decide, rfl⟩

/-- CRLF line terminator (SMTP wire framing). -/
def crlf : List Nat := [13, 10]

/-- LF line terminator (the `linesep` of `policy.default`). -/
def lf : List Nat := [10]

/-- Bytes of an ASCII string (one byte per character). -/
def strBytes (s : String) : List Nat := s.data.map Char.toNat

/-- Serialize a list of content lines, terminating every line (including
the last) with `eol`. -/
def serializeLines (eol : List Nat) (lines : List (List Nat)) : List Nat :=
  (lines.map (fun l => l ++ eol)).flatten

@[simp] theorem serializeLines_nil (eol : List Nat) : serializeLines eol [] = [] := rfl

@[simp] theorem serializeLines_cons (eol x : List Nat) (rest : List (List Nat)) :
    serializeLines eol (x :: rest) = (x ++ eol) ++ serializeLines eol rest := by
  simp [serializeLines]

/-- SMTP session and envelope data that aiosmtpd's
`Message.prepare_message` (`aiosmtpd/handlers.py`) stamps onto every
delivered message: `peer` is the rendering `str(session.peer)`,
`mailFrom` is `envelope.mail_from`, `rcptTos` is `envelope.rcpt_tos`. -/
structure SmtpEnvelopeInfo where
  peer : String
  mailFrom : String
  rcptTos : List String

/-- A received message at line granularity: the wire header lines and
body lines, with CR and LF excluded from line content (they are the
framing, not the content).  The `DATA` content delivered on the wire is
these lines, each CRLF-terminated, with a blank separator line between
headers and body.  The model covers messages whose header lines are
short enough that `policy.default` (refold_source = "long") re-emits
them unchanged rather than refolding them. -/
structure WireMessage where
  headerLines : List (List Nat)
  bodyLines : List (List Nat)

/-- The message content as received on the wire: headers, blank
separator and body, every line terminated by CRLF. -/
def wireBytes (m : WireMessage) : List Nat :=
  serializeLines crlf (m.headerLines ++ [[]] ++ m.bodyLines)

/-- The three header lines aiosmtpd's `Message.prepare_message` always
appends to the parsed message before `handle_message` runs:
`message["X-Peer"] = str(session.peer)`,
`message["X-MailFrom"] = envelope.mail_from` and
`message["X-RcptTo"] = COMMASPACE.join(envelope.rcpt_tos)`; header
assignment appends at the end of the header block, so they follow the
wire headers in serialization order. -/
def injectedHeaders (env : SmtpEnvelopeInfo) : List (List Nat) :=
  [strBytes ("X-Peer: " ++ env.peer),
   strBytes ("X-MailFrom: " ++ env.mailFrom),
   strBytes ("X-RcptTo: " ++ String.intercalate ", " env.rcptTos)]

/-- The bytes the sink persists: `raw_bytes =
message.as_bytes(policy=policy.default)` (`SinkHandler.handle_message`
line 156), where `message` is the one aiosmtpd prepared — the parsed
wire message with the three injected X-headers appended.  The generator
under `policy.default` emits every header and body line terminated with
`linesep = "\n"`, and emits short single-line headers verbatim. -/
def raw_bytes (env : SmtpEnvelopeInfo) (m : WireMessage) : List Nat :=
  serializeLines lf (m.headerLines ++ injectedHeaders env ++ [[]] ++ m.bodyLines)

theorem mem_13_serializeLines_crlf (lines : List (List Nat)) (h : lines ≠ []) :
    (13 : Nat) ∈ serializeLines crlf lines := by
  cases lines with
  | nil => exact absurd rfl h
  | cons x rest =>
    rw [serializeLines_cons]
    exact List.mem_append_left _ (List.mem_append_right _ (by decide))

theorem not_mem_13_serializeLines_lf (lines : List (List Nat))
    (h : ∀ l ∈ lines, (13 : Nat) ∉ l) :
    (13 : Nat) ∉ serializeLines lf lines := by
  induction lines with
  | nil => simp
  | cons x rest ih =>
    rw [serializeLines_cons]
    intro hmem
    rcases List.mem_append.mp hmem with h1 | h2
    · rcases List.mem_append.mp h1 with ha | hb
      · exact h x (List.mem_cons_self x rest) ha
      · revert hb
        decide
    · exact ih (fun l hl => h l (List.mem_cons_of_mem x hl)) h2

theorem serialize_mem_decomp (eol : List Nat) (lines : List (List Nat)) (l : List Nat)
    (h : l ∈ lines) :
    ∃ pre post, pre ++ (l ++ eol) ++ post = serializeLines eol lines := by
  induction lines with
  | nil => cases h
  | cons x rest ih =>
    rcases List.mem_cons.mp h with rfl | h2
    · exact ⟨[], serializeLines eol rest, by simp⟩
    · rcases ih h2 with ⟨pre, post, heq⟩
      refine ⟨(x ++ eol) ++ pre, post, ?_⟩
      rw [serializeLines_cons, ← heq]
      simp [List.append_assoc]

/-- Contents of the storage directory, as assoc lists from the id stem
(the `uuid4()` string shared by `<uid>.eml` and `<uid>.json`) to the raw
artifact bytes and to the metadata record. -/
structure StoreState where
  raw : List (String × List Nat)
  meta : List (String × Record)
deriving DecidableEq

/-- The sequence of store states observable while
`SinkHandler.handle_message` (`mail_sink/server.py` lines 153-186)
captures one message: before any write, after
`eml_path.write_bytes(raw_bytes)` (line 163), and after
`json_path.write_text(...)` (line 186).  `rawBytes` is the value
computed at line 156 (`raw_bytes` above); `rec` is the metadata record
built at lines 168-184 — its construction uses only the
exception-swallowing helpers (`_decode_hdr`, `_headers_list`,
`_best_effort_bodies`, `_attachment_metadata`), so it always completes
between the two writes, and since its value is irrelevant to the storage
claims it is a parameter here. -/
def handle_message_states (s0 : StoreState) (uid : String) (rawBytes : List Nat)
    (rec : Record) : List StoreState :=
  let s1 : StoreState := { s0 with raw := (uid, rawBytes) :: s0.raw }
  let s2 : StoreState := { s1 with meta := (uid, rec) :: s1.meta }
  [s0, s1, s2]

/-- Session data for the C3 counterexample; `peer` stands for the
`str(session.peer)` rendering of the client address — its exact text is
immaterial, as the theorems hold for every CR-free rendering. -/
def envLocal : SmtpEnvelopeInfo :=
  { peer := "127.0.0.1 51123", mailFrom := "a@x", rcptTos := ["b@x"] }

/-- The wire message "Subject: hi<CRLF><CRLF>B<CRLF>". -/
def msgHi : WireMessage :=
  { headerLines := [strBytes "Subject: hi"], bodyLines := [strBytes "B"] }

/-- C3 counterexample: the artifact persisted for the wire message
`msgHi` is its re-serialization with the injected X-Peer, X-MailFrom and
X-RcptTo header lines and LF line endings, which is not byte-for-byte
the received wire content — contradicting the claim that the raw
artifact holds exactly the bytes as received. -/
theorem c3_counterexample :
    ((handle_message_states ⟨[], []⟩ "u1" (raw_bytes envLocal msgHi) {}).getLast?).map
        (fun s => s.raw.lookup "u1") = some (some (raw_bytes envLocal msgHi))
    ∧ raw_bytes envLocal msgHi ≠ wireBytes msgHi := by
  constructor
  · rfl
  · decide

/-- C3, amended: the persisted raw artifact holds the received message
as re-serialized under `policy.default` from the message aiosmtpd
prepared: the wire lines with the injected X-Peer, X-MailFrom and
X-RcptTo header lines appended to the header block, every line
terminated by LF instead of the wire's CRLF.  It therefore contains each
injected header line, and it is never byte-for-byte the received wire
content: the wire always contains a CR byte and the artifact contains
none. -/
theorem c3_stored_raw (s0 : StoreState) (uid : String) (env : SmtpEnvelopeInfo)
    (m : WireMessage) (rec : Record)
    (hlines : ∀ l ∈ m.headerLines ++ injectedHeaders env ++ [[]] ++ m.bodyLines,
        (13 : Nat) ∉ l) :
    (∃ s2, (handle_message_states s0 uid (raw_bytes env m) rec).getLast? = some s2
        ∧ s2.raw.lookup uid = some (raw_bytes env m))
    ∧ (∀ h ∈ injectedHeaders env,
        ∃ pre post, pre ++ (h ++ lf) ++ post = raw_bytes env m)
    ∧ raw_bytes env m ≠ wireBytes m := by
  refine ⟨⟨_, rfl, by simp [handle_message_states, List.lookup]⟩, ?_, ?_⟩
  · intro h hh
    exact serialize_mem_decomp lf _ h
      (List.mem_append_left m.bodyLines
        (List.mem_append_left [[]] (List.mem_append_right m.headerLines hh)))
  · intro heq
    have h13w : (13 : Nat) ∈ wireBytes m := by
      apply mem_13_serializeLines_crlf
      simp
    have h13s : (13 : Nat) ∉ raw_bytes env m :=
      not_mem_13_serializeLines_lf _ hlines
    rw [heq] at h13s
    exact h13s h13w

/-- Witness for c3_stored_raw at the counterexample message: the stored
artifact contains the injected X-MailFrom header line and differs from
the wire bytes. -/
theorem c3_witness :
    (∃ pre post,
        pre ++ (strBytes ("X-MailFrom: " ++ "a@x") ++ lf) ++ post
          = raw_bytes envLocal msgHi)
    ∧ raw_bytes envLocal msgHi ≠ wireBytes msgHi :=
  ⟨(c3_stored_raw ⟨[], []⟩ "u" envLocal msgHi {} (by decide)).2.1
      (strBytes ("X-MailFrom: " ++ "a@x")) (by decide),
    (c3_stored_raw ⟨[], []⟩ "u2" envLocal msgHi {} (by decide)).2.2⟩

/-- Reader-visible invariant direction that the code does maintain:
every id with a metadata artifact also has a raw artifact. -/
def metaImpliesRaw (s : StoreState) : Prop :=
  ∀ k : String, (s.meta.lookup k).isSome = true → (s.raw.lookup k).isSome = true

/-- C4 counterexample: capturing one message into an empty store passes
through an observable state (after the `.eml` write, before the `.json`
write) in which the raw artifact for the new id exists but its metadata
artifact does not — the two artifacts are not written atomically
together, contradicting the both-or-neither claim. -/
theorem c4_counterexample :
    ¬ ∀ st ∈ handle_message_states ⟨[], []⟩ "u1" [65] {},
        ((st.raw.lookup "u1").isSome ↔ (st.meta.lookup "u1").isSome) := by
  decide

theorem lookup_cons_isSome_of {β : Type} (l : List (String × β)) (a k : String) (v : β)
    (h : (l.lookup k).isSome = true) : (((a, v) :: l).lookup k).isSome = true := by
  cases hk : k == a <;> simp [List.lookup, hk, h]

theorem countP_key_eq_zero {β : Type} (l : List (String × β)) (uid : String)
    (h : l.lookup uid = none) : l.countP (fun e => e.1 == uid) = 0 := by
  induction l with
  | nil => rfl
  | cons x xs ih =>
    cases hx : uid == x.1 with
    | true =>
      exfalso
      rw [List.lookup, hx] at h
      cases h
    | false =>
      rw [List.lookup, hx] at h
      have hx' : (x.1 == uid) = false := by
        have : uid ≠ x.1 := by simpa using hx
        simpa using Ne.symm this
      rw [List.countP_cons, ih h, hx']
      rfl

/-- C4, amended: the capture step writes the raw artifact first and the
metadata artifact second, not atomically: every observable state still
satisfies the one direction "metadata present implies raw present" (so a
reader never sees metadata without its raw artifact), but the state
between the two writes has the raw artifact without its metadata; after
the step completes, the fresh id has exactly one raw and exactly one
metadata artifact, holding the written raw bytes and the record. -/
theorem c4_raw_before_meta (s0 : StoreState) (uid : String) (rawBytes : List Nat) (rec : Record)
    (h0 : metaImpliesRaw s0)
    (hr : s0.raw.lookup uid = none) (hm : s0.meta.lookup uid = none) :
    (∀ st ∈ handle_message_states s0 uid rawBytes rec, metaImpliesRaw st)
    ∧ (∃ st ∈ handle_message_states s0 uid rawBytes rec,
        (st.raw.lookup uid).isSome = true ∧ st.meta.lookup uid = none)
    ∧ (∃ s2, (handle_message_states s0 uid rawBytes rec).getLast? = some s2
        ∧ s2.raw.countP (fun e => e.1 == uid) = 1
        ∧ s2.meta.countP (fun e => e.1 == uid) = 1
        ∧ s2.raw.lookup uid = some rawBytes
        ∧ s2.meta.lookup uid = some rec) := by
  refine ⟨?_, ?_, ?_⟩
  · intro st hst
    simp only [handle_message_states, List.mem_cons, List.not_mem_nil, or_false] at hst
    rcases hst with rfl | rfl | rfl
    · exact h0
    · intro k hk
      exact lookup_cons_isSome_of s0.raw uid k _ (h0 k hk)
    · intro k hk
      cases hku : k == uid with
      | true => simp [List.lookup, hku]
      | false =>
        rw [List.lookup, hku] at hk
        exact lookup_cons_isSome_of s0.raw uid k _ (h0 k hk)
  · refine ⟨{ s0 with raw := (uid, rawBytes) :: s0.raw }, ?_, ?_, hm⟩
    · simp [handle_message_states]
    · simp [List.lookup]
  · refine ⟨{ raw := (uid, rawBytes) :: s0.raw,
              meta := (uid, rec) :: s0.meta }, rfl, ?_, ?_, ?_, ?_⟩
    · rw [List.countP_cons, countP_key_eq_zero s0.raw uid hr]
      simp
    · rw [List.countP_cons, countP_key_eq_zero s0.meta uid hm]
      simp
    · simp [List.lookup]
    · simp [List.lookup]

/-- Witness for c4_raw_before_meta: the intermediate raw-without-metadata
state on an empty store. -/
theorem c4_witness :
    ∃ st ∈ handle_message_states ⟨[], []⟩ "u1" [65] ({} : Record),
      (st.raw.lookup "u1").isSome = true ∧ st.meta.lookup "u1" = none :=
  (c4_raw_before_meta ⟨[], []⟩ "u1" [65] {}
    (fun k h => by simp [List.lookup] at h) rfl rfl).2.1

end EmailMcp
